import Mathlib

/-!
Verification of NoPartsBatteryGuageAVR.c (a zero-external-parts battery
gauge for the ATtiny84A).

The program has two parts:

* readVccVoltage (lines 50-127): configures the analog-to-digital
  converter to measure the internal 1.1 V band-gap reference against the
  supply rail, waits 1 ms for settling, runs conversions, reads the
  10-bit result from ADCL/ADCH and computes the supply voltage in
  decivolts as (uint8_t)((11 * 1024) / adc), then disables the converter.

* main (lines 130-166): forever reads the voltage, blinks the LED on
  PA7 once per whole volt (250 ms on, 250 ms off per blink), then pauses
  1000 ms.

Modelling choices:

* Registers are 8-bit memory-mapped locations, modelled as natural
  numbers.  Every register update the program performs is bitwise: an or
  with an 8-bit mask, or an and with the 8-bit complement of a mask
  (the C pattern REG &= ~_BV(b), where the complement is taken within
  8 bits).  Such updates cannot leave the 8-bit range when the operands
  are below 256, so no truncation is inserted on them; the arithmetic in
  readVccVoltage carries explicit mod 2^8 and mod 2^16 exactly where the
  C types uint8_t and uint16_t truncate.

* C division by zero is undefined behaviour; the value computation
  returns an Option, with none marking the undefined case.

* The hardware is driven through a trace of atomic events.  The
  converter hardware is modelled by a stream of pending 10-bit
  conversion results: when a conversion completes, ADSC is cleared and
  the next pending result is latched into ADCL/ADCH.  A conversion takes
  at most 25 converter clocks, which at the 125 kHz converter clock of
  this program is 200 microseconds, so every fixed delay the program
  executes (all are 1 ms or longer) completes any in-flight conversion.
-/

/-- Register file covering the parts of the ATtiny84A this program touches. -/
structure AVRState where
  ADMUX : Nat
  ADCSRA : Nat
  ADCL : Nat
  ADCH : Nat
  PORTA : Nat
  DDRA : Nat
  deriving DecidableEq, Repr

/-- Bit number of ADEN (converter enable) in ADCSRA. -/
def ADEN : Nat := 7

/-- Bit number of ADSC (start conversion) in ADCSRA. -/
def ADSC : Nat := 6

/-- Bit number of ADPS1 (clock prescaler select 1) in ADCSRA. -/
def ADPS1 : Nat := 1

/-- Bit number of ADPS0 (clock prescaler select 0) in ADCSRA. -/
def ADPS0 : Nat := 0

/-- Bit number of the LED pin PA7 in PORTA and DDRA. -/
def PORTA7 : Nat := 7

/-- The avr-libc bit-value helper _BV(b) = (1 << b). -/
def _BV (b : Nat) : Nat := 1 <<< b

/-- Atomic hardware actions performed by the program, in source order. -/
inductive Event where
  | writeADMUX (v : Nat)
  | orADCSRA (mask : Nat)
  | andNotADCSRA (mask : Nat)
  | delayMs (ms : Nat)
  | pollADSC
  | readADCL
  | readADCH
  | orDDRA (mask : Nat)
  | orPORTA (mask : Nat)
  | andNotPORTA (mask : Nat)
  deriving DecidableEq, Repr

/-- Machine state: the register file plus the stream of 10-bit results the
converter hardware will deliver for successive completed conversions. -/
structure Machine where
  regs : AVRState
  pending : List Nat
  deriving DecidableEq, Repr

/-- Hardware side of a completed conversion: ADSC is cleared and the next
pending 10-bit result is latched into ADCL (low byte) and ADCH (high byte). -/
def completeConversion (m : Machine) : Machine :=
  match m.pending with
  | [] => { m with regs := { m.regs with ADCSRA := m.regs.ADCSRA &&& (255 ^^^ _BV ADSC) } }
  | s :: rest =>
    { regs := { m.regs with
        ADCSRA := m.regs.ADCSRA &&& (255 ^^^ _BV ADSC),
        ADCL := s % 256,
        ADCH := s / 256 % 256 },
      pending := rest }

/-- Effect of one event on the machine.  A delay event completes an
in-flight conversion (every delay in this program is at least 1 ms, far
longer than the 200 microsecond conversion time), and pollADSC models the
busy-wait while (ADCSRA & _BV(ADSC)) which returns only once the hardware
has cleared ADSC. -/
def stepM (m : Machine) : Event → Machine
  | .writeADMUX v => { m with regs := { m.regs with ADMUX := v % 256 } }
  | .orADCSRA mask => { m with regs := { m.regs with ADCSRA := m.regs.ADCSRA ||| mask } }
  | .andNotADCSRA mask => { m with regs := { m.regs with ADCSRA := m.regs.ADCSRA &&& (255 ^^^ mask) } }
  | .delayMs _ => if m.regs.ADCSRA.testBit ADSC then completeConversion m else m
  | .pollADSC => if m.regs.ADCSRA.testBit ADSC then completeConversion m else m
  | .readADCL => m
  | .readADCH => m
  | .orDDRA mask => { m with regs := { m.regs with DDRA := m.regs.DDRA ||| mask } }
  | .orPORTA mask => { m with regs := { m.regs with PORTA := m.regs.PORTA ||| mask } }
  | .andNotPORTA mask => { m with regs := { m.regs with PORTA := m.regs.PORTA &&& (255 ^^^ mask) } }

/-- Run a trace of events from a machine state. -/
def runTrace (m : Machine) (tr : List Event) : Machine :=
  tr.foldl stepM m

/-- Event trace of one readVccVoltage call (lines 57-123 of the source):
ADMUX = 0b00100001; ADCSRA |= _BV(ADEN)|_BV(ADSC)|_BV(ADPS1)|_BV(ADPS0);
_delay_ms(1); two rounds of ADCSRA |= _BV(ADSC) followed by the busy-wait;
the reads of ADCL and ADCH; ADCSRA &= ~_BV(ADEN). -/
def readVccVoltageTrace : List Event :=
  [ Event.writeADMUX 0b00100001,
    Event.orADCSRA (_BV ADEN ||| _BV ADSC ||| _BV ADPS1 ||| _BV ADPS0),
    Event.delayMs 1,
    Event.orADCSRA (_BV ADSC),
    Event.pollADSC,
    Event.orADCSRA (_BV ADSC),
    Event.pollADSC,
    Event.readADCL,
    Event.readADCH,
    Event.andNotADCSRA (_BV ADEN) ]

/-- Value computation of readVccVoltage (lines 104-115) from the register
file: uint8_t low = ADCL; uint8_t high = ADCH;
uint16_t adc = (high << 8) | low;
uint8_t vccx10 = (uint8_t)((11 * 1024) / adc);
returning none when adc = 0, where the C division is undefined. -/
def computeVccx10 (r : AVRState) : Option Nat :=
  let low := r.ADCL
  let high := r.ADCH
  let adc := ((high <<< 8) ||| low) % 65536
  if adc = 0 then none
  else some ((11 * 1024 / adc) % 256)

/-- Value returned by readVccVoltage when the conversion that is read
delivered the 10-bit result raw_sample, i.e. when the hardware latched
ADCL = raw_sample mod 256 and ADCH = raw_sample / 256 (kept within the
8-bit register). -/
def readVccVoltage (raw_sample : Nat) : Option Nat :=
  computeVccx10
    { ADMUX := 0, ADCSRA := 0,
      ADCL := raw_sample % 256, ADCH := raw_sample / 256 % 256,
      PORTA := 0, DDRA := 0 }

/-- Event trace of one pass of the blink for-loop body (lines 151-161):
PORTA |= _BV(PORTA7); _delay_ms(250); PORTA &= ~_BV(PORTA7); _delay_ms(250). -/
def blinkOnce : List Event :=
  [ Event.orPORTA (_BV PORTA7),
    Event.delayMs 250,
    Event.andNotPORTA (_BV PORTA7),
    Event.delayMs 250 ]

/-- Event trace of the for-loop for(i=0;i<n;i++) around the blink body. -/
def blinkLoop : Nat → List Event
  | 0 => []
  | n + 1 => blinkOnce ++ blinkLoop n

/-- Event trace of one iteration of the main while(1) loop, given the
decivolt value vccx10 the sampling call returned: the sampling call, then
vccx10 / 10 blinks, then _delay_ms(1000). -/
def mainIterTrace (vccx10 : Nat) : List Event :=
  readVccVoltageTrace ++ blinkLoop (vccx10 / 10) ++ [Event.delayMs 1000]

/-- One iteration of the main loop run on the machine: execute the sampling
call, compute vccx10 from the result registers (none if the division is
undefined), then execute the blink loop and the 1000 ms pause.  Returns the
final machine and the full event trace of the iteration. -/
def mainIter (m : Machine) : Option (Machine × List Event) :=
  match computeVccx10 (runTrace m readVccVoltageTrace).regs with
  | none => none
  | some vccx10 =>
    some (runTrace (runTrace m readVccVoltageTrace)
        (blinkLoop (vccx10 / 10) ++ [Event.delayMs 1000]),
      readVccVoltageTrace ++ (blinkLoop (vccx10 / 10) ++ [Event.delayMs 1000]))

/-- The initialization before the main loop (line 135): DDRA |= _BV(PORTA7). -/
def mainInitTrace : List Event :=
  [ Event.orDDRA (_BV PORTA7) ]

/-- Number of pulses (LED turn-on events) in a trace. -/
def pulseCount (tr : List Event) : Nat :=
  tr.countP (fun e => decide (e = Event.orPORTA (_BV PORTA7)))

/-- An event starts a conversion exactly when it is a write that sets the
ADSC bit of ADCSRA while that bit is currently clear. -/
def startsADSC (m : Machine) : Event → Bool
  | .orADCSRA mask => mask.testBit ADSC && !m.regs.ADCSRA.testBit ADSC
  | _ => false

/-- For each event of a trace, whether executing it starts a conversion. -/
def convStartFlags : Machine → List Event → List Bool
  | _, [] => []
  | m, e :: tr => startsADSC m e :: convStartFlags (stepM m e) tr

/-- True for the fixed-duration delay events. -/
def isDelay : Event → Bool
  | .delayMs _ => true
  | _ => false

/-- True for the two events that write the ADEN bit of ADCSRA. -/
def writesADEN : Event → Bool
  | .orADCSRA mask => mask.testBit ADEN
  | .andNotADCSRA mask => mask.testBit ADEN
  | _ => false

/-- True for the two events that write PORTA. -/
def writesPORTA : Event → Bool
  | .orPORTA _ => true
  | .andNotPORTA _ => true
  | _ => false

/-- Register file at power-on reset: all modelled registers read zero. -/
def powerOnState : AVRState :=
  { ADMUX := 0, ADCSRA := 0, ADCL := 0, ADCH := 0, PORTA := 0, DDRA := 0 }

/-! ## Helper lemmas -/

/-- The sampling-call trace, with all register masks evaluated to numerals. -/
theorem readVccVoltageTrace_eq :
    readVccVoltageTrace =
      [ Event.writeADMUX 33, Event.orADCSRA 195, Event.delayMs 1,
        Event.orADCSRA 64, Event.pollADSC, Event.orADCSRA 64, Event.pollADSC,
        Event.readADCL, Event.readADCH, Event.andNotADCSRA 128 ] := rfl

theorem tb195 : Nat.testBit 195 ADSC = true := by decide

theorem tb191 : Nat.testBit 191 ADSC = false := by decide

theorem tb64 : Nat.testBit 64 ADSC = true := by decide

theorem xor_adsc : (255 : Nat) ^^^ _BV ADSC = 191 := by decide

theorem xor128 : (255 : Nat) ^^^ 128 = 127 := by decide

/-- Running one sampling call from a register file with ADSC clear and three
pending conversion results: a conversion is completed during the settling
delay (result s1, never read), one during each busy-wait (results s2 and
s3), and the result registers end up holding the last result s3. -/
theorem run_readVcc (r : AVRState) (s1 s2 s3 : Nat)
    (hADSC : r.ADCSRA.testBit ADSC = false) :
    runTrace ⟨r, [s1, s2, s3]⟩ readVccVoltageTrace =
      ⟨{ ADMUX := 33,
         ADCSRA := ((((r.ADCSRA ||| 195) &&& 191 ||| 64) &&& 191 ||| 64) &&& 191) &&& 127,
         ADCL := s3 % 256, ADCH := s3 / 256 % 256,
         PORTA := r.PORTA, DDRA := r.DDRA }, []⟩ := by
  rw [readVccVoltageTrace_eq]
  simp [runTrace, stepM, completeConversion, xor_adsc, xor128,
    Nat.testBit_lor, Nat.testBit_land, tb195, tb191, tb64, hADSC]

/-- Conversion-start instrumentation of one sampling call: conversions are
started by the events at indices 1 (the enabling write, which also sets
ADSC), 3 and 5, and by no others. -/
theorem convFlags_readVcc (r : AVRState) (s1 s2 s3 : Nat)
    (hADSC : r.ADCSRA.testBit ADSC = false) :
    convStartFlags ⟨r, [s1, s2, s3]⟩ readVccVoltageTrace =
      [false, true, false, true, false, true, false, false, false, false] := by
  rw [readVccVoltageTrace_eq]
  simp [convStartFlags, startsADSC, stepM, completeConversion, xor_adsc, xor128,
    Nat.testBit_lor, Nat.testBit_land, tb195, tb191, tb64, hADSC]

set_option maxRecDepth 4096 in
/-- Recombining the low and high result bytes recovers any 10-bit sample. -/
theorem decode_raw : ∀ raw : Nat, raw < 1024 →
    ((raw / 256 % 256) <<< 8 ||| raw % 256) % 65536 = raw := by
  decide

/-- Closed form of the value computation on 10-bit samples. -/
theorem readVccVoltage_eq_ite (raw : Nat) (h : raw < 1024) :
    readVccVoltage raw = if raw = 0 then none else some (11 * 1024 / raw % 256) := by
  simp only [readVccVoltage, computeVccx10]
  rw [decode_raw raw h]

/-- For samples of at least 45 the 8-bit cast does not truncate, so the
returned value is exactly the integer quotient. -/
theorem readVcc_eq_floor (raw : Nat) (h45 : 45 ≤ raw) (h : raw ≤ 1023) :
    readVccVoltage raw = some (11 * 1024 / raw) := by
  rw [readVccVoltage_eq_ite raw (by omega), if_neg (by omega)]
  have hle : 11 * 1024 / raw ≤ 11 * 1024 / 45 := Nat.div_le_div_left h45 (by omega)
  have h45v : 11 * 1024 / 45 = 250 := by norm_num
  rw [Nat.mod_eq_of_lt (by omega)]

/-- Every value the computation can return is below 256. -/
theorem readVcc_lt_256 (raw : Nat) (v : Nat) (h : readVccVoltage raw = some v) : v < 256 := by
  simp only [readVccVoltage, computeVccx10] at h
  split at h
  · exact absurd h (by simp)
  · have := Option.some.inj h
    omega

theorem runTrace_append (m : Machine) (a b : List Event) :
    runTrace m (a ++ b) = runTrace (runTrace m a) b :=
  List.foldl_append stepM m a b

/-- Complement masks keep a low bit they do not name. -/
theorem tb_xor_not (mask : Nat) (b : Nat) (hb : b < 8) (h : mask.testBit b = false) :
    Nat.testBit (255 ^^^ mask) b = true := by
  rw [Nat.testBit_xor, h]
  have h255 : Nat.testBit 255 b = true := by
    interval_cases b <;> decide
  rw [h255]
  rfl

theorem complete_preserves_ADEN (m : Machine) :
    (completeConversion m).regs.ADCSRA.testBit ADEN = m.regs.ADCSRA.testBit ADEN := by
  rcases hp : m.pending with _ | ⟨s, rest⟩ <;>
    simp only [completeConversion, hp] <;>
    rw [Nat.testBit_land, tb_xor_not (_BV ADSC) ADEN (by decide) (by decide), Bool.and_true]

theorem step_preserves_ADEN (m : Machine) (e : Event) (he : writesADEN e = false) :
    (stepM m e).regs.ADCSRA.testBit ADEN = m.regs.ADCSRA.testBit ADEN := by
  cases e with
  | writeADMUX v => rfl
  | orADCSRA mask =>
    simp only [writesADEN] at he
    simp only [stepM]
    rw [Nat.testBit_lor, he, Bool.or_false]
  | andNotADCSRA mask =>
    simp only [writesADEN] at he
    simp only [stepM]
    rw [Nat.testBit_land, tb_xor_not mask ADEN (by decide) he, Bool.and_true]
  | delayMs ms =>
    simp only [stepM]
    split
    · exact complete_preserves_ADEN m
    · rfl
  | pollADSC =>
    simp only [stepM]
    split
    · exact complete_preserves_ADEN m
    · rfl
  | readADCL => rfl
  | readADCH => rfl
  | orDDRA mask => rfl
  | orPORTA mask => rfl
  | andNotPORTA mask => rfl

theorem run_preserves_ADEN (tr : List Event) (m : Machine)
    (h : ∀ e ∈ tr, writesADEN e = false) :
    (runTrace m tr).regs.ADCSRA.testBit ADEN = m.regs.ADCSRA.testBit ADEN := by
  induction tr generalizing m with
  | nil => rfl
  | cons e tr ih =>
    rw [runTrace, List.foldl_cons]
    rw [show List.foldl stepM (stepM m e) tr = runTrace (stepM m e) tr from rfl]
    rw [ih (stepM m e) (fun x hx => h x (List.mem_cons_of_mem e hx))]
    exact step_preserves_ADEN m e (h e (List.mem_cons_self e tr))

theorem complete_preserves_PORTA (m : Machine) :
    (completeConversion m).regs.PORTA = m.regs.PORTA := by
  rcases hp : m.pending with _ | ⟨s, rest⟩ <;> simp [completeConversion, hp]

theorem step_preserves_PORTA (m : Machine) (e : Event) (he : writesPORTA e = false) :
    (stepM m e).regs.PORTA = m.regs.PORTA := by
  cases e <;> simp_all [writesPORTA, stepM]
  case delayMs ms =>
    split
    · exact complete_preserves_PORTA m
    · rfl
  case pollADSC =>
    split
    · exact complete_preserves_PORTA m
    · rfl

theorem run_preserves_PORTA (tr : List Event) (m : Machine)
    (h : ∀ e ∈ tr, writesPORTA e = false) :
    (runTrace m tr).regs.PORTA = m.regs.PORTA := by
  induction tr generalizing m with
  | nil => rfl
  | cons e tr ih =>
    rw [runTrace, List.foldl_cons]
    rw [show List.foldl stepM (stepM m e) tr = runTrace (stepM m e) tr from rfl]
    rw [ih (stepM m e) (fun x hx => h x (List.mem_cons_of_mem e hx))]
    exact step_preserves_PORTA m e (h e (List.mem_cons_self e tr))

/-- Unrolling the for-loop trace to its replicate normal form. -/
theorem blinkLoop_eq_replicate (n : Nat) :
    blinkLoop n = (List.replicate n blinkOnce).flatten := by
  induction n with
  | zero => rfl
  | succ n ih => rw [blinkLoop, ih, List.replicate_succ, List.flatten_cons]

theorem pulseCount_append (a b : List Event) :
    pulseCount (a ++ b) = pulseCount a + pulseCount b :=
  List.countP_append _ a b

theorem pulseCount_blinkLoop (n : Nat) : pulseCount (blinkLoop n) = n := by
  induction n with
  | zero => rfl
  | succ n ih =>
    rw [blinkLoop, pulseCount_append, ih]
    have h1 : pulseCount blinkOnce = 1 := by decide
    omega

/-- Number of LED activations in one main-loop iteration whose sampling
call returned the decivolt value d. -/
theorem pulseCount_mainIterTrace (d : Nat) :
    pulseCount (mainIterTrace d) = d / 10 := by
  rw [mainIterTrace, pulseCount_append, pulseCount_append, pulseCount_blinkLoop]
  have h0 : pulseCount readVccVoltageTrace = 0 := by decide
  have h1 : pulseCount [Event.delayMs 1000] = 0 := by decide
  omega

/-- Every event of the blink for-loop is one of the four events of its body. -/
theorem mem_blinkLoop (n : Nat) (e : Event) (he : e ∈ blinkLoop n) : e ∈ blinkOnce := by
  induction n with
  | zero => cases he
  | succ n ih =>
    rw [blinkLoop] at he
    rcases List.mem_append.1 he with h | h
    · exact h
    · exact ih h

theorem blink_pause_no_ADEN (n : Nat) (e : Event)
    (he : e ∈ blinkLoop n ++ [Event.delayMs 1000]) : writesADEN e = false := by
  rcases List.mem_append.1 he with h | h
  · exact (by decide : ∀ x ∈ blinkOnce, writesADEN x = false) e (mem_blinkLoop n e h)
  · rw [List.mem_singleton.1 h]
    rfl

theorem pause_call_no_PORTA (e : Event)
    (he : e ∈ Event.delayMs 1000 :: readVccVoltageTrace) : writesPORTA e = false := by
  revert e
  decide

theorem pin_after_blinkOnce (m : Machine) :
    (runTrace m blinkOnce).regs.PORTA.testBit PORTA7 = false := by
  have h1 : runTrace m blinkOnce =
      stepM (stepM (stepM (stepM m (Event.orPORTA (_BV PORTA7))) (Event.delayMs 250))
        (Event.andNotPORTA (_BV PORTA7))) (Event.delayMs 250) := rfl
  rw [h1, step_preserves_PORTA _ _ (by decide)]
  simp only [stepM]
  rw [Nat.testBit_land, show Nat.testBit (255 ^^^ _BV PORTA7) PORTA7 = false by decide,
    Bool.and_false]

theorem pin_after_blinkLoop (n : Nat) (m : Machine)
    (h : m.regs.PORTA.testBit PORTA7 = false) :
    (runTrace m (blinkLoop n)).regs.PORTA.testBit PORTA7 = false := by
  induction n generalizing m with
  | zero => exact h
  | succ n ih =>
    rw [blinkLoop, runTrace_append]
    exact ih (runTrace m blinkOnce) (pin_after_blinkOnce m)

/-- The converter enable bit is clear after the final write of the sampling
call, whatever the machine state was before the call. -/
theorem aden_clear_after_call (m : Machine) :
    (runTrace m readVccVoltageTrace).regs.ADCSRA.testBit ADEN = false := by
  have hsplit : readVccVoltageTrace =
      readVccVoltageTrace.dropLast ++ [Event.andNotADCSRA (_BV ADEN)] := rfl
  rw [hsplit, runTrace_append]
  show (stepM _ (Event.andNotADCSRA (_BV ADEN))).regs.ADCSRA.testBit ADEN = false
  simp only [stepM]
  rw [Nat.testBit_land, show Nat.testBit (255 ^^^ _BV ADEN) ADEN = false by decide,
    Bool.and_false]

/-! ## Claims -/

/-- C1, counterexample: at raw_sample = 44 the quotient 11264 / 44 = 256
does not fit the uint8_t cast, and readVccVoltage returns 0, not 256, so
the returned value is not floor(11264 / raw_sample) on all of [1, 1023]. -/
theorem c1_counterexample :
    readVccVoltage 44 = some 0 ∧ 11 * 1024 / 44 = 256 ∧ (0 : Nat) ≠ 256 := by
  decide

/-- C1 (amended): for every raw_sample in [1, 1023] the value returned by
readVccVoltage equals floor((11 * 1024) / raw_sample) reduced modulo 256 —
the uint8_t cast on line 115; for raw_sample at least 45 the quotient is
below 256 and the reduction is the identity. -/
theorem c1_value (raw : Nat) (h1 : 1 ≤ raw) (h2 : raw ≤ 1023) :
    readVccVoltage raw = some (11 * 1024 / raw % 256) := by
  rw [readVccVoltage_eq_ite raw (by omega), if_neg (by omega)]

/-- C1, witness at raw_sample = 100: the returned value is 11264 / 100 mod
256 = 112. -/
theorem c1_witness :
    (1 ≤ 100 ∧ 100 ≤ 1023) ∧ readVccVoltage 100 = some (11 * 1024 / 100 % 256) :=
  ⟨by decide, c1_value 100 (by decide) (by decide)⟩

/-- C2: for every 10-bit raw sample, the division in readVccVoltage hits
C undefined behaviour (modelled none) exactly when the sample is 0: there
is no guard before the division, and any nonzero sample gives a defined
result. -/
theorem c2_division_unguarded (raw : Nat) (h : raw ≤ 1023) :
    readVccVoltage raw = none ↔ raw = 0 := by
  rw [readVccVoltage_eq_ite raw (by omega)]
  by_cases h0 : raw = 0 <;> simp [h0]

/-- C2, witness at raw_sample = 0: the division-by-zero branch is reached. -/
theorem c2_witness :
    ((0 : Nat) ≤ 1023) ∧ (readVccVoltage 0 = none ↔ (0 : Nat) = 0) :=
  ⟨by decide, c2_division_unguarded 0 (by decide)⟩

/-- C3, counterexample: the returned value is not non-increasing on all of
[1, 1023]: at the neighbouring samples 44 < 45 the uint8_t cast wraps
11264 / 44 = 256 to 0 while 45 maps to 250, so the value increases. -/
theorem c3_counterexample :
    (1 ≤ 44 ∧ 44 < 45 ∧ 45 ≤ 1023) ∧
      readVccVoltage 44 = some 0 ∧ readVccVoltage 45 = some 250 ∧ ¬ (250 ≤ 0) := by
  decide

/-- C3 (amended): the returned value is non-increasing on [45, 1023], the
part of the range on which the uint8_t cast does not truncate (on [1, 44]
the wrap of the cast breaks monotonicity, as the counterexample shows). -/
theorem c3_antitone (a b va vb : Nat) (ha : 45 ≤ a) (hab : a ≤ b) (hb : b ≤ 1023)
    (hva : readVccVoltage a = some va) (hvb : readVccVoltage b = some vb) :
    vb ≤ va := by
  rw [readVcc_eq_floor a ha (by omega)] at hva
  rw [readVcc_eq_floor b (by omega) hb] at hvb
  have h1 := Option.some.inj hva
  have h2 := Option.some.inj hvb
  subst h1
  subst h2
  exact Nat.div_le_div_left hab (by omega)

/-- C3, witness at a = 100, b = 200: 56 = value(200) ≤ value(100) = 112. -/
theorem c3_witness :
    (45 ≤ 100 ∧ 100 ≤ 200 ∧ 200 ≤ 1023 ∧
      readVccVoltage 100 = some 112 ∧ readVccVoltage 200 = some 56) ∧ 56 ≤ 112 :=
  ⟨by decide,
    c3_antitone 100 200 112 56 (by decide) (by decide) (by decide) (by decide) (by decide)⟩

/-- C4, counterexample: raw_sample = 180 gives decivolts = 62 ≥ 50 (a
supply of 6.2 V), yet the iteration emits 6 pulses, not 5: the code never
clamps the count at 5, so "exactly 5 blinks for all Vcc ≥ 5 V" fails. -/
theorem c4_counterexample :
    readVccVoltage 180 = some 62 ∧ 50 ≤ 62 ∧
      pulseCount (mainIterTrace 62) = 6 ∧ (6 : Nat) ≠ 5 := by
  decide

/-- C4 (amended): in the cycle whose sampling returned decivolts d, the
blink count is d / 10: it equals n exactly when d lies in [10n, 10n + 9],
so it is n for supply voltage in [n, n+1) volts for every n — in
particular 5 exactly for 5.0 V to 5.9 V, while readings of 6.0 V and
above give more than 5 blinks. -/
theorem c4_blink_count (raw d n : Nat) (hv : readVccVoltage raw = some d)
    (h1 : 10 * n ≤ d) (h2 : d < 10 * n + 10) :
    pulseCount (mainIterTrace d) = n := by
  rw [pulseCount_mainIterTrace]
  omega

/-- C4, witness at raw_sample = 225: decivolts = 50, exactly 5 blinks. -/
theorem c4_witness :
    (readVccVoltage 225 = some 50 ∧ 10 * 5 ≤ 50 ∧ 50 < 10 * 5 + 10) ∧
      pulseCount (mainIterTrace 50) = 5 :=
  ⟨by decide, c4_blink_count 225 50 5 (by decide) (by decide) (by decide)⟩

/-- C5: in every iteration of the indicator loop the number of emitted
pulses is decivolts / 10 with integer truncation, and the transitions sit
exactly at decivolt multiples of 10: 29 decivolts yields 2 blinks and 30
decivolts yields 3. -/
theorem c5_whole_volt_count (d : Nat) :
    pulseCount (mainIterTrace d) = d / 10 ∧
      pulseCount (mainIterTrace 29) = 2 ∧ pulseCount (mainIterTrace 30) = 3 :=
  ⟨pulseCount_mainIterTrace d, by decide, by decide⟩

/-- C6: whatever machine state a readVccVoltage call starts from, the
converter enable bit ADEN is clear when the call returns, and it stays
clear at every point of the main loop outside the call: after any prefix
of the blink loop plus the inter-cycle pause, ADEN still reads 0. -/
theorem c6_adc_disabled (m : Machine) (d k : Nat) :
    (runTrace m readVccVoltageTrace).regs.ADCSRA.testBit ADEN = false ∧
      (runTrace m (readVccVoltageTrace ++
        (blinkLoop (d / 10) ++ [Event.delayMs 1000]).take k)).regs.ADCSRA.testBit ADEN
        = false := by
  refine ⟨aden_clear_after_call m, ?_⟩
  rw [runTrace_append, run_preserves_ADEN]
  · exact aden_clear_after_call m
  · intro e he
    exact blink_pause_no_ADEN (d / 10) e (List.mem_of_mem_take he)

/-- C7, counterexample: the write at index 1 of the sampling trace (the
one that enables the converter) also sets ADSC and thus already starts a
conversion, while the 1 ms settling delay is only the event at index 2 —
so a conversion is started before the settling delay has elapsed,
refuting the claimed ordering. -/
theorem c7_counterexample :
    convStartFlags ⟨powerOnState, [225, 225, 225]⟩ readVccVoltageTrace =
        [false, true, false, true, false, true, false, false, false, false] ∧
      (convStartFlags ⟨powerOnState, [225, 225, 225]⟩ (readVccVoltageTrace.take 2)).count true
        = 1 ∧
      (readVccVoltageTrace.take 2).all (fun e => !isDelay e) = true ∧
      readVccVoltageTrace[2]? = some (Event.delayMs 1) := by
  decide

/-- C7 (amended): the enabling write also sets ADSC, so one conversion is
started at enable time, before the 1 ms settling delay (its result is
consumed during the delay and never read); after the delay exactly two
further conversions are started, each awaited to completion, and the value
computed from the result registers is that of the last conversion — the
second one run after the delay. -/
theorem c7_conversion_order (r : AVRState) (s1 s2 s3 : Nat)
    (hADSC : r.ADCSRA.testBit ADSC = false) :
    convStartFlags ⟨r, [s1, s2, s3]⟩ readVccVoltageTrace =
        [false, true, false, true, false, true, false, false, false, false] ∧
      (runTrace ⟨r, [s1, s2, s3]⟩ readVccVoltageTrace).regs.ADCL = s3 % 256 ∧
      (runTrace ⟨r, [s1, s2, s3]⟩ readVccVoltageTrace).regs.ADCH = s3 / 256 % 256 ∧
      computeVccx10 (runTrace ⟨r, [s1, s2, s3]⟩ readVccVoltageTrace).regs
        = readVccVoltage s3 := by
  refine ⟨convFlags_readVcc r s1 s2 s3 hADSC, ?_, ?_, ?_⟩ <;>
    rw [run_readVcc r s1 s2 s3 hADSC]
  rfl

/-- C7, witness from the power-on state with three pending results. -/
theorem c7_witness :
    (powerOnState.ADCSRA.testBit ADSC = false) ∧
      (convStartFlags ⟨powerOnState, [100, 200, 300]⟩ readVccVoltageTrace =
          [false, true, false, true, false, true, false, false, false, false] ∧
        (runTrace ⟨powerOnState, [100, 200, 300]⟩ readVccVoltageTrace).regs.ADCL = 300 % 256 ∧
        (runTrace ⟨powerOnState, [100, 200, 300]⟩ readVccVoltageTrace).regs.ADCH
          = 300 / 256 % 256 ∧
        computeVccx10 (runTrace ⟨powerOnState, [100, 200, 300]⟩ readVccVoltageTrace).regs
          = readVccVoltage 300) :=
  ⟨by decide, c7_conversion_order powerOnState 100 200 300 (by decide)⟩

/-- C8: an iteration of the main loop whose last conversion delivered s3
with decivolt value d emits exactly the sampling trace, then d / 10
pulses — each turning the pin on, holding 250 ms, turning it off, holding
250 ms — then the single 1000 ms pause; for d below 10 the replicate is
empty and the iteration emits zero pulses and only the pause. -/
theorem c8_iteration_trace (r : AVRState) (s1 s2 s3 d : Nat)
    (hADSC : r.ADCSRA.testBit ADSC = false) (hv : readVccVoltage s3 = some d) :
    (mainIter ⟨r, [s1, s2, s3]⟩).map Prod.snd = some (mainIterTrace d) ∧
      mainIterTrace d = readVccVoltageTrace ++
        (List.replicate (d / 10) blinkOnce).flatten ++ [Event.delayMs 1000] ∧
      pulseCount (mainIterTrace d) = d / 10 := by
  have hbridge : computeVccx10 (runTrace ⟨r, [s1, s2, s3]⟩ readVccVoltageTrace).regs
      = some d := by
    rw [run_readVcc r s1 s2 s3 hADSC]
    exact hv
  refine ⟨?_, ?_, pulseCount_mainIterTrace d⟩
  · rw [mainIter.eq_def, hbridge]
    rfl
  · rw [mainIterTrace, blinkLoop_eq_replicate]

/-- C8, witness: with all conversions reading 225 the iteration emits the
sampling trace, five pulses and the pause. -/
theorem c8_witness :
    (powerOnState.ADCSRA.testBit ADSC = false ∧ readVccVoltage 225 = some 50) ∧
      ((mainIter ⟨powerOnState, [225, 225, 225]⟩).map Prod.snd = some (mainIterTrace 50) ∧
        mainIterTrace 50 = readVccVoltageTrace ++
          (List.replicate (50 / 10) blinkOnce).flatten ++ [Event.delayMs 1000] ∧
        pulseCount (mainIterTrace 50) = 50 / 10) :=
  ⟨⟨by decide, by decide⟩,
    c8_iteration_trace powerOnState 225 225 225 50 (by decide) (by decide)⟩

/-- C9: for every raw_sample in [1, 1023] the value readVccVoltage returns
is strictly below 256 — it fits in 8 bits even though the C return type is
uint16_t, because the uint8_t cast on line 115 truncates first. -/
theorem c9_fits_byte (raw v : Nat) (h1 : 1 ≤ raw) (h2 : raw ≤ 1023)
    (hv : readVccVoltage raw = some v) : v < 256 :=
  readVcc_lt_256 raw v hv

/-- C9, witness at raw_sample = 225: the value 50 is below 256. -/
theorem c9_witness :
    (1 ≤ 225 ∧ 225 ≤ 1023 ∧ readVccVoltage 225 = some 50) ∧ 50 < 256 :=
  ⟨by decide, c9_fits_byte 225 50 (by decide) (by decide) (by decide)⟩

/-- C10: if the pin is low when a main-loop iteration starts, it is low
again once the blink loop of that iteration has finished, and it stays
low through every prefix of the 1000 ms pause and the following sampling
call — that is, until the first pulse of the next iteration. -/
theorem c10_pin_low_between (m : Machine) (d k : Nat)
    (hpin : m.regs.PORTA.testBit PORTA7 = false) :
    (runTrace m (readVccVoltageTrace ++ blinkLoop (d / 10))).regs.PORTA.testBit PORTA7
        = false ∧
      (runTrace m (readVccVoltageTrace ++ blinkLoop (d / 10) ++
        (Event.delayMs 1000 :: readVccVoltageTrace).take k)).regs.PORTA.testBit PORTA7
        = false := by
  have hafter : (runTrace m (readVccVoltageTrace ++ blinkLoop (d / 10))).regs.PORTA.testBit
      PORTA7 = false := by
    rw [runTrace_append]
    refine pin_after_blinkLoop (d / 10) _ ?_
    rw [run_preserves_PORTA readVccVoltageTrace m (by decide)]
    exact hpin
  refine ⟨hafter, ?_⟩
  rw [runTrace_append, run_preserves_PORTA]
  · exact hafter
  · intro e he
    exact pause_call_no_PORTA e (List.mem_of_mem_take he)

/-- C10, witness: from the power-on state with decivolts 62, the pin is
low after the blink loop and throughout the pause and the next sampling
call. -/
theorem c10_witness :
    (powerOnState.PORTA.testBit PORTA7 = false) ∧
      ((runTrace ⟨powerOnState, [225, 225, 225]⟩
          (readVccVoltageTrace ++ blinkLoop (62 / 10))).regs.PORTA.testBit PORTA7 = false ∧
        (runTrace ⟨powerOnState, [225, 225, 225]⟩ (readVccVoltageTrace ++ blinkLoop (62 / 10) ++
          (Event.delayMs 1000 :: readVccVoltageTrace).take 11)).regs.PORTA.testBit PORTA7
          = false) :=
  ⟨by decide, c10_pin_low_between ⟨powerOnState, [225, 225, 225]⟩ 62 11 (by decide)⟩
